import Mathlib

/-!
Shallow embedding of the flight-deck client core logic.

Source files embedded:
- src/utils/statusCalculator.ts    (calculateFlightStatus)
- src/components/FlightTable.tsx   (change-detection useEffect, timeout callback,
                                    handleDelete success path)
- src/components/FlightRow.tsx     (displayStatus)
- src/components/FlightDashboard.tsx (handleFlightAdded, handleFlightDeleted)
- src/types/flight.ts              (IFlight, FlightStatus)

Embedding conventions:
- A JavaScript timestamp is its UTC epoch-milliseconds value, an `Int`.
  The textual ISO-8601 departure string of a record is embedded as the result
  of parsing it: `Option Int` (`none` = `new Date(s)` produced an invalid
  date, i.e. `isNaN(date.getTime())`; `some m` = the finite integral
  time value `m`).  Valid JS time values are always integers.
- `Date.now()` is read inside `calculateFlightStatus` in the source; the
  ambient wall-clock value that this read returns is made an explicit
  parameter `nowUtcMillis` of the embedding.
- The JS division `diffMillis / 60000` is embedded as exact division in `ℚ`.
  For the integer time values reachable here the double-precision quotient
  compares to the literal thresholds 30, 10, -60, -15 exactly as the
  rational quotient does (the quotient is a multiple of 1/60000 and the
  nearest-double rounding error is orders of magnitude below that spacing),
  so the embedding is faithful to the source comparisons.
- A JS object used as a string-keyed map (`Record<string, T>`) is embedded
  as a function `String → Option T`; a JS `Map` built from a list is
  embedded by a last-write-wins fold (`mapGet`).
- A `setTimeout` handle is embedded by the instant its callback is
  scheduled to fire (`expiresAt`); clearing the old handle and arming a new
  one is the overwrite of that field.
-/

/-- The closed status enumeration from src/types/flight.ts. -/
inductive FlightStatus : Type
  | Scheduled
  | Boarding
  | Departed
  | Landed
  | Delayed
  | Unknown
deriving DecidableEq

/-- Flight record from src/types/flight.ts.  `departureTime` is the parse
result of the ISO string (see the embedding conventions above);
`currentStatus` is the optional status pushed over SignalR. -/
structure IFlight : Type where
  id : String
  flightNumber : String
  destination : String
  departureTime : Option Int
  gate : String
  currentStatus : Option FlightStatus
deriving DecidableEq

/-- The quantity `diffMinutes = (departureUtcMillis - nowUtcMillis) / 60000`
computed in src/utils/statusCalculator.ts, with the division taken exactly. -/
def diffMinutes (departureUtcMillis nowUtcMillis : Int) : ℚ :=
  ((departureUtcMillis - nowUtcMillis : Int) : ℚ) / 60000

/-- `calculateFlightStatus` from src/utils/statusCalculator.ts.

The source takes the departure time as a string, parses it, and on an
invalid date returns `"Unknown"`; the parse result is the `Option Int`
argument here.  The source then reads `Date.now()` internally; that ambient
clock value is the explicit `nowUtcMillis` argument.  The body of the
source is a try/catch around straight-line arithmetic in which no operation
can throw, so the embedding is the total function below and the catch arm
is dead. -/
def calculateFlightStatus (departure : Option Int) (nowUtcMillis : Int) : FlightStatus :=
  match departure with
  | none => FlightStatus.Unknown
  | some departureUtcMillis =>
    if diffMinutes departureUtcMillis nowUtcMillis > 30 then FlightStatus.Scheduled
    else if diffMinutes departureUtcMillis nowUtcMillis > 10 then FlightStatus.Boarding
    else if diffMinutes departureUtcMillis nowUtcMillis ≥ -60 then FlightStatus.Departed
    else if diffMinutes departureUtcMillis nowUtcMillis < -60 then FlightStatus.Landed
    else if diffMinutes departureUtcMillis nowUtcMillis < -15 then FlightStatus.Delayed
    else FlightStatus.Unknown

lemma diffMinutes_gt_30_iff (d n : Int) : 30 < diffMinutes d n ↔ 1800000 < d - n := by
  unfold diffMinutes
  rw [lt_div_iff₀ (by norm_num : (0 : ℚ) < 60000)]
  norm_cast

lemma diffMinutes_gt_10_iff (d n : Int) : 10 < diffMinutes d n ↔ 600000 < d - n := by
  unfold diffMinutes
  rw [lt_div_iff₀ (by norm_num : (0 : ℚ) < 60000)]
  norm_cast

lemma diffMinutes_ge_neg60_iff (d n : Int) : -60 ≤ diffMinutes d n ↔ -3600000 ≤ d - n := by
  unfold diffMinutes
  rw [le_div_iff₀ (by norm_num : (0 : ℚ) < 60000)]
  norm_cast

lemma diffMinutes_lt_neg60_iff (d n : Int) : diffMinutes d n < -60 ↔ d - n < -3600000 := by
  unfold diffMinutes
  rw [div_lt_iff₀ (by norm_num : (0 : ℚ) < 60000)]
  norm_cast

/-- Integer-scaled characterization of the classifier on parseable input:
the rational comparisons of the source reduce to integer threshold
comparisons on the millisecond difference, and the `Delayed`/`Unknown`
arms drop out because the first four conditions cover every integer. -/
lemma calculateFlightStatus_some_eq (d n : Int) :
    calculateFlightStatus (some d) n =
      (if 1800000 < d - n then FlightStatus.Scheduled
       else if 600000 < d - n then FlightStatus.Boarding
       else if -3600000 ≤ d - n then FlightStatus.Departed
       else FlightStatus.Landed) := by
  show (if 30 < diffMinutes d n then FlightStatus.Scheduled
    else if 10 < diffMinutes d n then FlightStatus.Boarding
    else if -60 ≤ diffMinutes d n then FlightStatus.Departed
    else if diffMinutes d n < -60 then FlightStatus.Landed
    else if diffMinutes d n < -15 then FlightStatus.Delayed
    else FlightStatus.Unknown) = _
  simp only [gt_iff_lt, ge_iff_le, diffMinutes_gt_30_iff, diffMinutes_gt_10_iff,
    diffMinutes_ge_neg60_iff, diffMinutes_lt_neg60_iff]
  split_ifs <;> first | rfl | omega

/-- C1: on parseable input the classifier returns `Scheduled` iff
`diffMinutes > 30`, `Boarding` iff `10 < diffMinutes ≤ 30`, `Departed` iff
`-60 ≤ diffMinutes ≤ 10`, and `Landed` iff `diffMinutes < -60`, evaluated
as the first-match-wins ladder of the source; in particular a departure
exactly 30 minutes ahead classifies as `Boarding`, exactly 10 minutes
ahead as `Departed`, and exactly 60 minutes behind as `Departed`. -/
theorem calculateFlightStatus_branch_semantics (dep now : Int) :
    (calculateFlightStatus (some dep) now = FlightStatus.Scheduled ↔
      30 < diffMinutes dep now)
  ∧ (calculateFlightStatus (some dep) now = FlightStatus.Boarding ↔
      (10 < diffMinutes dep now ∧ diffMinutes dep now ≤ 30))
  ∧ (calculateFlightStatus (some dep) now = FlightStatus.Departed ↔
      (-60 ≤ diffMinutes dep now ∧ diffMinutes dep now ≤ 10))
  ∧ (calculateFlightStatus (some dep) now = FlightStatus.Landed ↔
      diffMinutes dep now < -60)
  ∧ calculateFlightStatus (some (now + 30 * 60000)) now = FlightStatus.Boarding
  ∧ calculateFlightStatus (some (now + 10 * 60000)) now = FlightStatus.Departed
  ∧ calculateFlightStatus (some (now - 60 * 60000)) now = FlightStatus.Departed := by
  have h30 := diffMinutes_gt_30_iff dep now
  have h10 := diffMinutes_gt_10_iff dep now
  have h60 := diffMinutes_ge_neg60_iff dep now
  have hl60 := diffMinutes_lt_neg60_iff dep now
  have hle30 : diffMinutes dep now ≤ 30 ↔ dep - now ≤ 1800000 := by
    rw [← not_lt, ← not_lt, h30]
  have hle10 : diffMinutes dep now ≤ 10 ↔ dep - now ≤ 600000 := by
    rw [← not_lt, ← not_lt, h10]
  simp only [calculateFlightStatus_some_eq, h30, h10, h60, hl60, hle30, hle10]
  refine ⟨?_, ?_, ?_, ?_, ?_, ?_, ?_⟩ <;> split_ifs <;> first | rfl | (simp; omega) | omega

/-- C2: on parseable input the classifier never returns `Delayed` (that
ladder arm is dominated by the `Departed` and `Landed` arms) and never
returns `Unknown` (reserved for unparseable input); the result is always
one of `Scheduled`, `Boarding`, `Departed`, `Landed`. -/
theorem calculateFlightStatus_no_Delayed_no_Unknown (dep now : Int) :
    calculateFlightStatus (some dep) now ≠ FlightStatus.Delayed
  ∧ calculateFlightStatus (some dep) now ≠ FlightStatus.Unknown
  ∧ (calculateFlightStatus (some dep) now = FlightStatus.Scheduled
    ∨ calculateFlightStatus (some dep) now = FlightStatus.Boarding
    ∨ calculateFlightStatus (some dep) now = FlightStatus.Departed
    ∨ calculateFlightStatus (some dep) now = FlightStatus.Landed) := by
  rw [calculateFlightStatus_some_eq]
  split_ifs <;> simp

/-- C3: the classifier is a total function that maps a failed (or
non-finite) parse of the departure timestamp to `Unknown`.  In the source
the invalid-date guard returns the string `"Unknown"` and no statement in
the try block can throw, so the embedding is total and has no other effect
on the caller; this theorem pins the unparseable case. -/
theorem calculateFlightStatus_unparseable_is_Unknown (now : Int) :
    calculateFlightStatus none now = FlightStatus.Unknown := rfl

/-- C9 counterexample: the source reads `Date.now()` inside
`calculateFlightStatus` — the caller passes only the departure string, not
the evaluation instant.  Formalizing the claimed clock independence (the
output should be determined by the caller-supplied input alone), it is
false: the same parsed departure `some 0` classifies as `Scheduled` when
the ambient clock reads -3600000 and as `Departed` when it reads 0. -/
theorem calculateFlightStatus_clock_independence_false :
    ¬ ∀ (departure : Option Int) (clock₁ clock₂ : Int),
        calculateFlightStatus departure clock₁ = calculateFlightStatus departure clock₂ := by
  intro h
  have h2 := h (some 0) (-3600000) 0
  rw [calculateFlightStatus_some_eq, calculateFlightStatus_some_eq] at h2
  revert h2
  decide

/-- C9 amended: the classifier is a deterministic pure function of the
departure timestamp together with the ambient wall-clock instant it reads
internally via `Date.now()` (not passed by the caller), and its output
depends on those two instants only through their difference. -/
theorem calculateFlightStatus_deterministic_in_departure_and_clock (dep now : Int) :
    calculateFlightStatus (some dep) now = calculateFlightStatus (some (dep - now)) 0 := by
  rw [calculateFlightStatus_some_eq, calculateFlightStatus_some_eq]
  norm_num

/-- `displayStatus` from src/components/FlightRow.tsx:
`flight.currentStatus ?? calculateFlightStatus(flight.departureTime)`.
The classifier reads the ambient clock internally; `clock` is that value. -/
def displayStatus (flight : IFlight) (clock : Int) : FlightStatus :=
  (flight.currentStatus).getD (calculateFlightStatus flight.departureTime clock)

/-- The actual-status expression of the change-detection effect in
src/components/FlightTable.tsx: `pushedStatus ?? calculatedStatus`, where
`pushedStatus = flight.currentStatus` and `calculatedStatus =
calculateFlightStatus(flight.departureTime)`.  The effect computes this
same expression for the previous-observation record (`prevActualStatus`,
when a previous record exists) and for the current record
(`currentActualStatus`). -/
def currentActualStatus (flight : IFlight) (clock : Int) : FlightStatus :=
  (flight.currentStatus).getD (calculateFlightStatus flight.departureTime clock)

/-- Modelled from the spec: `EffectiveStatus` (derived, not stored) is
`pushedStatus` if present, else `StatusClassifier(departureTime, now)`.
Stated from the words of the spec to compare against the source-derived
`displayStatus` and `currentActualStatus`. -/
def effectiveStatusSpec (flight : IFlight) (clock : Int) : FlightStatus :=
  match flight.currentStatus with
  | some pushed => pushed
  | none => calculateFlightStatus flight.departureTime clock

/-- C4: the status used for display (`displayStatus` in FlightRow) and the
status used on both sides of the change-detection diff
(`currentActualStatus`, applied to the previous and to the current record)
coincide with the effective status of the spec: the pushed override when
present, otherwise the classifier result. -/
theorem effective_status_precedence (flight : IFlight) (clock : Int) :
    displayStatus flight clock = effectiveStatusSpec flight clock
  ∧ currentActualStatus flight clock = effectiveStatusSpec flight clock
  ∧ (∀ s, flight.currentStatus = some s →
      displayStatus flight clock = s ∧ currentActualStatus flight clock = s)
  ∧ (flight.currentStatus = none →
      displayStatus flight clock = calculateFlightStatus flight.departureTime clock
      ∧ currentActualStatus flight clock = calculateFlightStatus flight.departureTime clock) := by
  unfold displayStatus currentActualStatus effectiveStatusSpec
  cases h : flight.currentStatus <;> simp

/-- Witness for C4 at a concrete record with a pushed override. -/
theorem effective_status_precedence_witness :
    displayStatus ⟨"A", "FD1", "LHR", some 0, "G1", some FlightStatus.Boarding⟩ 0
      = FlightStatus.Boarding :=
  ((effective_status_precedence ⟨"A", "FD1", "LHR", some 0, "G1", some FlightStatus.Boarding⟩ 0).2.2.1
    FlightStatus.Boarding rfl).1

/-- The highlight window: the `setTimeout` delay of 10000 ms hard-coded in
the change-detection effect of src/components/FlightTable.tsx. -/
def highlightDurationMs : Int := 10000

/-- `AnimatingStatusInfo` from src/components/FlightTable.tsx.  The
`timeoutId` handle of the source is embedded as `expiresAt`, the instant
the scheduled callback fires (creation instant + `highlightDurationMs`);
`clearTimeout` plus re-`setTimeout` is the overwrite of this field. -/
structure AnimatingStatusInfo : Type where
  oldStatus : FlightStatus
  newStatus : FlightStatus
  expiresAt : Int
deriving DecidableEq

/-- `new Map(list.map(f => [f.id, f])).get(id)`: Map construction from a
keyed list, where a later entry with the same key overwrites an earlier
one (last write wins), then lookup. -/
def mapGet (l : List IFlight) (id : String) : Option IFlight :=
  l.foldl (fun acc f => if f.id = id then some f else acc) none

/-- One iteration of the `flights.forEach` loop of the change-detection
effect in src/components/FlightTable.tsx, restricted to its write into the
local `newAnimating` record: when a previous record with the same id
exists and the two actual statuses differ, `newAnimating[id]` is set to
the old/new pair with a fresh expiry (the source clears any existing
timeout for the id and arms a new 10000 ms one; both are embedded in the
`expiresAt` field).  The dead `?? "Unknown"` fallbacks of the source are
omitted: both actual statuses are always defined at this point. -/
def animWriteStep (prevFlights : List IFlight) (clock : Int)
    (acc : String → Option AnimatingStatusInfo) (currentFlight : IFlight) :
    String → Option AnimatingStatusInfo :=
  match mapGet prevFlights currentFlight.id with
  | none => acc
  | some prevFlight =>
    if currentActualStatus currentFlight clock ≠ currentActualStatus prevFlight clock then
      fun k => if k = currentFlight.id then
          some ⟨currentActualStatus prevFlight clock, currentActualStatus currentFlight clock,
            clock + highlightDurationMs⟩
        else acc k
    else acc

/-- The local `newAnimating` record after the `flights.forEach` loop of
the effect has run over the whole current collection. -/
def buildNewAnimating (prevFlights : List IFlight) (clock : Int)
    (currFlights : List IFlight) : String → Option AnimatingStatusInfo :=
  currFlights.foldl (animWriteStep prevFlights clock) (fun _ => none)

/-- One iteration of the same `forEach` loop restricted to its
`changesDetected.push(currentFlight.id)` effect (guarded by the same
condition as the `newAnimating` write). -/
def changesStep (prevFlights : List IFlight) (clock : Int)
    (acc : List String) (currentFlight : IFlight) : List String :=
  match mapGet prevFlights currentFlight.id with
  | none => acc
  | some prevFlight =>
    if currentActualStatus currentFlight clock ≠ currentActualStatus prevFlight clock then
      acc ++ [currentFlight.id]
    else acc

/-- The `changesDetected` array after the loop. -/
def changesDetected (prevFlights : List IFlight) (clock : Int)
    (currFlights : List IFlight) : List String :=
  currFlights.foldl (changesStep prevFlights clock) []

/-- The whole change-detection effect of src/components/FlightTable.tsx as
a transformer of the `animatingStatuses` state: it diffs the previous
observation `prevFlights` (from `prevFlightsRef`) against the current
collection `currFlights`, and if any change was detected it merges
`newAnimating` over the existing state (`{...prev, ...newAnimating}`, new
entries overriding); otherwise the state is left untouched. -/
def observeStep (prevFlights currFlights : List IFlight) (clock : Int)
    (animatingStatuses : String → Option AnimatingStatusInfo) :
    String → Option AnimatingStatusInfo :=
  if (changesDetected prevFlights clock currFlights).length > 0 then
    fun k =>
      match buildNewAnimating prevFlights clock currFlights k with
      | some r => some r
      | none => animatingStatuses k
  else animatingStatuses

/-- The body of the `setTimeout` callback armed by the effect: it deletes
its own id from `animatingStatuses` (`delete next[currentFlight.id]`). -/
def expireTimeout (animatingStatuses : String → Option AnimatingStatusInfo)
    (id : String) : String → Option AnimatingStatusInfo :=
  fun k => if k = id then none else animatingStatuses k

/-- The success path of `handleDelete` in src/components/FlightTable.tsx:
after the API delete succeeds, if an animation entry exists for the id its
timeout is cleared and the entry is deleted from the map; otherwise the
map is untouched. -/
def handleDeleteSuccess (animatingStatuses : String → Option AnimatingStatusInfo)
    (id : String) : String → Option AnimatingStatusInfo :=
  match animatingStatuses id with
  | some _ => fun k => if k = id then none else animatingStatuses k
  | none => animatingStatuses

/-- `handleFlightDeleted` in src/components/FlightDashboard.tsx: the
SignalR removal handler filters the deleted id out of the flights
collection (and touches nothing else). -/
def handleFlightDeleted (current : List IFlight) (deletedId : String) : List IFlight :=
  current.filter (fun flight => flight.id != deletedId)

lemma mapGet_foldl (l : List IFlight) (id : String) (acc : Option IFlight) :
    l.foldl (fun a f => if f.id = id then some f else a) acc =
      match mapGet l id with
      | some g => some g
      | none => acc := by
  induction l generalizing acc with
  | nil => simp [mapGet]
  | cons f t ih =>
    rw [List.foldl_cons, ih]
    have h2 : mapGet (f :: t) id =
        match mapGet t id with
        | some g => some g
        | none => if f.id = id then some f else none := by
      rw [mapGet, List.foldl_cons, ih]
    rw [h2]
    cases mapGet t id with
    | some g => rfl
    | none => by_cases h : f.id = id <;> simp [h]

lemma mapGet_cons (f : IFlight) (t : List IFlight) (id : String) :
    mapGet (f :: t) id =
      match mapGet t id with
      | some g => some g
      | none => if f.id = id then some f else none := by
  rw [mapGet, List.foldl_cons, mapGet_foldl]

lemma mapGet_not_mem (l : List IFlight) (id : String) (h : id ∉ l.map IFlight.id) :
    mapGet l id = none := by
  induction l with
  | nil => rfl
  | cons f t ih =>
    simp only [List.map_cons, List.mem_cons, not_or] at h
    rw [mapGet_cons, ih h.2, if_neg (fun hf => h.1 hf.symm)]

lemma buildNewAnimating_foldl (prev : List IFlight) (clock : Int) (curr : List IFlight)
    (acc : String → Option AnimatingStatusInfo) (k : String) :
    (curr.foldl (animWriteStep prev clock) acc) k =
      match buildNewAnimating prev clock curr k with
      | some r => some r
      | none => acc k := by
  induction curr generalizing acc with
  | nil => simp [buildNewAnimating]
  | cons cf t ih =>
    rw [List.foldl_cons, ih]
    have h2 : buildNewAnimating prev clock (cf :: t) k =
        match buildNewAnimating prev clock t k with
        | some r => some r
        | none => animWriteStep prev clock (fun _ => none) cf k := by
      rw [buildNewAnimating, List.foldl_cons, ih]
    rw [h2]
    cases buildNewAnimating prev clock t k with
    | some r => rfl
    | none =>
      rcases hmg : mapGet prev cf.id with _ | pf
      · simp [animWriteStep, hmg]
      · by_cases hne : currentActualStatus cf clock ≠ currentActualStatus pf clock
        · by_cases hk : k = cf.id <;> simp [animWriteStep, hmg, hne, hk]
        · simp [animWriteStep, hmg, hne]

lemma buildNewAnimating_not_mem (prev : List IFlight) (clock : Int)
    (curr : List IFlight) (k : String) (h : k ∉ curr.map IFlight.id) :
    buildNewAnimating prev clock curr k = none := by
  induction curr with
  | nil => rfl
  | cons cf t ih =>
    simp only [List.map_cons, List.mem_cons, not_or] at h
    rw [buildNewAnimating, List.foldl_cons, buildNewAnimating_foldl, ih h.2]
    rcases hmg : mapGet prev cf.id with _ | pf
    · simp [animWriteStep, hmg]
    · by_cases hne : currentActualStatus cf clock ≠ currentActualStatus pf clock
      · simp [animWriteStep, hmg, hne, h.1]
      · simp [animWriteStep, hmg, hne]

lemma buildNewAnimating_char (prev : List IFlight) (clock : Int) :
    ∀ (curr : List IFlight), (curr.map IFlight.id).Nodup → ∀ (k : String),
      buildNewAnimating prev clock curr k =
        match mapGet prev k, mapGet curr k with
        | some pf, some cf =>
          if currentActualStatus cf clock ≠ currentActualStatus pf clock then
            some ⟨currentActualStatus pf clock, currentActualStatus cf clock,
              clock + highlightDurationMs⟩
          else none
        | some _, none => none
        | none, _ => none := by
  intro curr hnd k
  induction curr with
  | nil => rcases hmp : mapGet prev k with _ | pf <;> simp [buildNewAnimating, mapGet, hmp]
  | cons cf t ih =>
    simp only [List.map_cons, List.nodup_cons] at hnd
    rw [buildNewAnimating, List.foldl_cons, buildNewAnimating_foldl]
    by_cases hk : k = cf.id
    · subst hk
      rw [buildNewAnimating_not_mem prev clock t cf.id hnd.1, mapGet_cons,
        mapGet_not_mem t cf.id hnd.1, if_pos rfl]
      rcases hmg : mapGet prev cf.id with _ | pf
      · simp [animWriteStep, hmg]
      · by_cases hne : currentActualStatus cf clock ≠ currentActualStatus pf clock <;>
          simp [animWriteStep, hmg, hne]
    · have hstep : animWriteStep prev clock (fun _ => none) cf k = none := by
        rcases hmg : mapGet prev cf.id with _ | pf
        · simp [animWriteStep, hmg]
        · by_cases hne : currentActualStatus cf clock ≠ currentActualStatus pf clock <;>
            simp [animWriteStep, hmg, hne, hk]
      rw [mapGet_cons]
      have hmt : (match mapGet t k with
          | some g => some g
          | none => if cf.id = k then some cf else none) = mapGet t k := by
        cases mapGet t k with
        | some g => rfl
        | none => rw [if_neg (fun hc => hk hc.symm)]
      rw [hmt, ← ih hnd.2]
      cases hb : buildNewAnimating prev clock t k with
      | some r => rfl
      | none => rw [hstep]

lemma changes_foldl_acc_nil (prev : List IFlight) (clock : Int) :
    ∀ (curr : List IFlight) (acc : List String),
      curr.foldl (changesStep prev clock) acc = [] → acc = [] := by
  intro curr
  induction curr with
  | nil => intro acc h; exact h
  | cons cf t ih =>
    intro acc h
    rw [List.foldl_cons] at h
    have h2 := ih _ h
    rcases hmg : mapGet prev cf.id with _ | pf
    · rwa [changesStep, hmg] at h2
    · simp only [changesStep, hmg] at h2
      by_cases hne : currentActualStatus cf clock ≠ currentActualStatus pf clock
      · rw [if_pos hne] at h2
        exact absurd h2 (by simp)
      · rwa [if_neg hne] at h2

lemma changes_empty_no_writes (prev : List IFlight) (clock : Int) :
    ∀ (curr : List IFlight),
      changesDetected prev clock curr = [] →
      ∀ (acc : String → Option AnimatingStatusInfo),
        curr.foldl (animWriteStep prev clock) acc = acc := by
  intro curr
  induction curr with
  | nil => intro _ acc; rfl
  | cons cf t ih =>
    intro h acc
    rw [changesDetected, List.foldl_cons] at h
    have hc : changesStep prev clock [] cf = [] := changes_foldl_acc_nil prev clock t _ h
    have hguard : animWriteStep prev clock acc cf = acc := by
      rcases hmg : mapGet prev cf.id with _ | pf
      · rw [animWriteStep, hmg]
      · simp only [changesStep, hmg] at hc
        by_cases hne : currentActualStatus cf clock ≠ currentActualStatus pf clock
        · rw [if_pos hne] at hc
          exact absurd hc (by simp)
        · simp only [animWriteStep, hmg]
          rw [if_neg hne]
    rw [List.foldl_cons, hguard]
    rw [hc] at h
    exact ih h acc

lemma observeStep_eq_merge (prev curr : List IFlight) (clock : Int)
    (m : String → Option AnimatingStatusInfo) (k : String) :
    observeStep prev curr clock m k =
      match buildNewAnimating prev clock curr k with
      | some r => some r
      | none => m k := by
  unfold observeStep
  by_cases h : (changesDetected prev clock curr).length > 0
  · rw [if_pos h]
  · rw [if_neg h]
    have hnil : changesDetected prev clock curr = [] := by
      rcases hc : changesDetected prev clock curr with _ | ⟨a, t⟩
      · rfl
      · exact absurd (hc ▸ (by simp : (a :: t).length > 0)) h
    have hw : buildNewAnimating prev clock curr k = none := by
      have := changes_empty_no_writes prev clock curr hnil (fun _ => none)
      rw [buildNewAnimating, this]
    rw [hw]

lemma buildNewAnimating_expiresAt_aux (prev : List IFlight) (clock : Int) :
    ∀ (curr : List IFlight) (acc : String → Option AnimatingStatusInfo),
      (∀ k r, acc k = some r → r.expiresAt = clock + highlightDurationMs) →
      ∀ k r, (curr.foldl (animWriteStep prev clock) acc) k = some r →
        r.expiresAt = clock + highlightDurationMs := by
  intro curr
  induction curr with
  | nil => intro acc hacc k r h; exact hacc k r h
  | cons cf t ih =>
    intro acc hacc k r h
    rw [List.foldl_cons] at h
    refine ih _ ?_ k r h
    intro k2 r2 h2
    rcases hmg : mapGet prev cf.id with _ | pf
    · simp only [animWriteStep, hmg] at h2
      exact hacc k2 r2 h2
    · simp only [animWriteStep, hmg] at h2
      by_cases hne : currentActualStatus cf clock ≠ currentActualStatus pf clock
      · rw [if_pos hne] at h2
        by_cases hk : k2 = cf.id
        · rw [if_pos hk] at h2
          cases h2
          rfl
        · rw [if_neg hk] at h2
          exact hacc k2 r2 h2
      · rw [if_neg hne] at h2
        exact hacc k2 r2 h2

lemma buildNewAnimating_expiresAt (prev : List IFlight) (clock : Int)
    (curr : List IFlight) (k : String) (r : AnimatingStatusInfo)
    (h : buildNewAnimating prev clock curr k = some r) :
    r.expiresAt = clock + highlightDurationMs := by
  refine buildNewAnimating_expiresAt_aux prev clock curr (fun _ => none) ?_ k r h
  intro k2 r2 h2
  cases h2

/-- Concrete fixture: flight "A" with pushed status `Scheduled`. -/
def flightA_scheduled : IFlight :=
  ⟨"A", "FD100", "LHR", some 0, "G1", some FlightStatus.Scheduled⟩

/-- Concrete fixture: flight "A" with pushed status `Boarding`. -/
def flightA_boarding : IFlight :=
  ⟨"A", "FD100", "LHR", some 0, "G1", some FlightStatus.Boarding⟩

/-- Concrete fixture: flight "A" with pushed status `Departed`. -/
def flightA_departed : IFlight :=
  ⟨"A", "FD100", "LHR", some 0, "G1", some FlightStatus.Departed⟩

/-- Concrete fixture: flight "A" with no pushed status, departing at
epoch millisecond 2100000 (35 minutes after instant 0). -/
def flightA_drift : IFlight :=
  ⟨"A", "FD400", "AMS", some 2100000, "G4", none⟩

/-- C5 counterexample: the claim diffs the effective status of the
previous observation at its own instant against the current one, but the
effect in FlightTable.tsx recomputes the previous side with a fresh
internal clock read (`prevCalculatedStatus =
calculateFlightStatus(prevFlight.departureTime)` at the current instant).
Concretely: flight "A" has no pushed status and departs at 2100000; at
the previous observation instant 0 its effective status is `Scheduled`
(35 minutes ahead), at the current observation instant 900000 it is
`Boarding` (20 minutes ahead) — the cross-observation effective statuses
differ and the id is present in both observations, yet the observation at
900000 creates no change record and the tracker state stays empty. -/
theorem drift_change_not_detected :
    effectiveStatusSpec flightA_drift 0 = FlightStatus.Scheduled
  ∧ effectiveStatusSpec flightA_drift 900000 = FlightStatus.Boarding
  ∧ observeStep [flightA_drift] [flightA_drift] 900000 (fun _ => none) "A" = none := by
  refine ⟨?_, ?_, ?_⟩
  · show calculateFlightStatus (some 2100000) 0 = FlightStatus.Scheduled
    rw [calculateFlightStatus_some_eq]
    decide
  · show calculateFlightStatus (some 2100000) 900000 = FlightStatus.Boarding
    rw [calculateFlightStatus_some_eq]
    decide
  · rw [observeStep_eq_merge,
      buildNewAnimating_char [flightA_drift] 900000 [flightA_drift] (by decide) "A"]
    have hm : mapGet [flightA_drift] "A" = some flightA_drift := rfl
    rw [hm]
    simp

/-- C5 amended: under unique current ids, the `newAnimating` entry for an
id is exactly: present iff the id occurs in both the previous and the
current observation and the two effective statuses differ when both are
evaluated at the current observation instant (the effect recomputes the
previous side with a fresh internal clock read rather than reusing the
previous observation instant), in which case it carries the (old, new)
pair and the fresh expiry; in particular an id absent from the previous
observation (newly added) never produces a change entry. -/
theorem change_record_created_iff (prevFlights currFlights : List IFlight) (clock : Int)
    (id : String) (hnd : (currFlights.map IFlight.id).Nodup) :
    buildNewAnimating prevFlights clock currFlights id =
      (match mapGet prevFlights id, mapGet currFlights id with
       | some pf, some cf =>
         if currentActualStatus cf clock ≠ currentActualStatus pf clock then
           some ⟨currentActualStatus pf clock, currentActualStatus cf clock,
             clock + highlightDurationMs⟩
         else none
       | some _, none => none
       | none, _ => none)
  ∧ (mapGet prevFlights id = none →
      buildNewAnimating prevFlights clock currFlights id = none) := by
  constructor
  · exact buildNewAnimating_char prevFlights clock currFlights hnd id
  · intro hp
    rw [buildNewAnimating_char prevFlights clock currFlights hnd id, hp]

/-- Witness for C5: a pushed `Scheduled` to `Boarding` transition for the
same id creates exactly the (Scheduled, Boarding) record with the fresh
expiry. -/
theorem change_record_created_iff_witness :
    buildNewAnimating [flightA_scheduled] 0 [flightA_boarding] "A" =
      some ⟨FlightStatus.Scheduled, FlightStatus.Boarding, 10000⟩ := by
  have h := (change_record_created_iff [flightA_scheduled] [flightA_boarding] 0 "A"
    (by decide)).1
  rw [h]
  decide

/-- C6 counterexample: the observation step does not cancel the pending
change record of a removed flight.  With a pending record for id "A" and
an observation in which "A" is present in the previous collection but
absent from the current one, the highlight lookup for "A" still returns
the pending record (not `none`) immediately after the observation. -/
theorem removed_flight_highlight_not_cancelled :
    observeStep [flightA_scheduled] [] 0
        (fun k => if k = "A"
          then some ⟨FlightStatus.Scheduled, FlightStatus.Boarding, 5000⟩ else none)
        "A" = some ⟨FlightStatus.Scheduled, FlightStatus.Boarding, 5000⟩
  ∧ observeStep [flightA_scheduled] [] 0
        (fun k => if k = "A"
          then some ⟨FlightStatus.Scheduled, FlightStatus.Boarding, 5000⟩ else none)
        "A" ≠ none := by
  decide

/-- C6 amended: immediate cancellation of a pending highlight happens only
in the user-initiated delete path: `handleDelete` (FlightTable) clears the
timer and removes the entry for the deleted id, leaving every other id
untouched, and `handleFlightDeleted` (FlightDashboard) removes the record
from the collection; the observation step itself leaves the pending
record of a removed id in place until its scheduled expiry fires. -/
theorem delete_cancels_highlight (m : String → Option AnimatingStatusInfo) (id : String) :
    handleDeleteSuccess m id id = none
  ∧ (∀ k, k ≠ id → handleDeleteSuccess m id k = m k)
  ∧ (∀ current : List IFlight, ∀ f ∈ handleFlightDeleted current id, f.id ≠ id) := by
  refine ⟨?_, ?_, ?_⟩
  · cases hm : m id <;> simp [handleDeleteSuccess, hm]
  · intro k hk
    cases hm : m id <;> simp [handleDeleteSuccess, hm, hk]
  · intro current f hf
    rw [handleFlightDeleted, List.mem_filter] at hf
    simpa using hf.2

/-- Witness for C6 (amended): deleting "A" clears its entry and leaves the
entry of "B" alone. -/
theorem delete_cancels_highlight_witness :
    handleDeleteSuccess
        (fun k => if k = "A"
          then some ⟨FlightStatus.Scheduled, FlightStatus.Boarding, 5000⟩ else none)
        "A" "A" = none
  ∧ handleDeleteSuccess
        (fun k => if k = "A"
          then some ⟨FlightStatus.Scheduled, FlightStatus.Boarding, 5000⟩ else none)
        "A" "B" =
      (fun k => if k = "A"
          then some ⟨FlightStatus.Scheduled, FlightStatus.Boarding, 5000⟩ else none) "B" :=
  ⟨(delete_cancels_highlight _ "A").1,
   (delete_cancels_highlight _ "A").2.1 "B" (by decide)⟩

/-- C7: a differing observation for an id always installs exactly the
latest (old, new) pair with a fresh expiry, overwriting whatever pending
record existed in the prior state `m` (cancel-then-restart); since the
state is a map keyed by id, at most one record per id is ever active. -/
theorem change_record_cancel_then_restart (prevFlights currFlights : List IFlight)
    (clock : Int) (m : String → Option AnimatingStatusInfo) (id : String)
    (pf cf : IFlight) (hnd : (currFlights.map IFlight.id).Nodup)
    (hp : mapGet prevFlights id = some pf) (hc : mapGet currFlights id = some cf)
    (hne : currentActualStatus cf clock ≠ currentActualStatus pf clock) :
    observeStep prevFlights currFlights clock m id =
      some ⟨currentActualStatus pf clock, currentActualStatus cf clock,
        clock + highlightDurationMs⟩ := by
  rw [observeStep_eq_merge]
  simp only [buildNewAnimating_char prevFlights clock currFlights hnd id, hp, hc]
  rw [if_pos hne]

/-- Witness for C7: after a Scheduled-to-Boarding change at instant 0, a
second Boarding-to-Departed change at instant 5000 (before the first
expiry at 10000) leaves the single latest record with expiry 15000. -/
theorem change_record_cancel_then_restart_witness :
    observeStep [flightA_boarding] [flightA_departed] 5000
        (observeStep [flightA_scheduled] [flightA_boarding] 0 (fun _ => none)) "A" =
      some ⟨currentActualStatus flightA_boarding 5000,
        currentActualStatus flightA_departed 5000, 5000 + highlightDurationMs⟩ :=
  change_record_cancel_then_restart [flightA_boarding] [flightA_departed] 5000
    (observeStep [flightA_scheduled] [flightA_boarding] 0 (fun _ => none)) "A"
    flightA_boarding flightA_departed (by decide) (by decide) (by decide) (by decide)

/-- C8: every change record created by an observation at instant `clock`
carries the expiry instant `clock + highlightDurationMs`, and once the
scheduled expiry callback is processed (it fires at an instant at or after
`expiresAt`) the id is no longer highlighted: the lookup returns `none`. -/
theorem change_record_expiry (prevFlights currFlights : List IFlight) (clock : Int)
    (m : String → Option AnimatingStatusInfo) (id : String) (r : AnimatingStatusInfo)
    (hr : buildNewAnimating prevFlights clock currFlights id = some r) :
    r.expiresAt = clock + highlightDurationMs
  ∧ ∀ t : Int, r.expiresAt ≤ t →
      expireTimeout (observeStep prevFlights currFlights clock m) id id = none := by
  refine ⟨buildNewAnimating_expiresAt prevFlights clock currFlights id r hr, ?_⟩
  intro t ht
  rw [expireTimeout, if_pos rfl]

/-- Witness for C8: the record created at instant 0 expires at 10000 and
processing the callback at 10001 clears the highlight. -/
theorem change_record_expiry_witness :
    (⟨FlightStatus.Scheduled, FlightStatus.Boarding, 10000⟩ : AnimatingStatusInfo).expiresAt
        = 0 + highlightDurationMs
  ∧ expireTimeout
        (observeStep [flightA_scheduled] [flightA_boarding] 0 (fun _ => none)) "A" "A"
      = none :=
  ⟨(change_record_expiry [flightA_scheduled] [flightA_boarding] 0 (fun _ => none) "A"
      ⟨FlightStatus.Scheduled, FlightStatus.Boarding, 10000⟩ (by decide)).1,
   (change_record_expiry [flightA_scheduled] [flightA_boarding] 0 (fun _ => none) "A"
      ⟨FlightStatus.Scheduled, FlightStatus.Boarding, 10000⟩ (by decide)).2 10001 (by decide)⟩

/-- `new Date(f.departureTime).getTime()` as used by the sort comparators
in src/components/FlightDashboard.tsx and src/hooks/useFlightsData.ts.
For a parseable departure string this is its UTC millisecond value; an
unparseable string gives `NaN` in JS, for which the comparator result is
unspecified — the embedding fixes that degenerate key to 0 and the C10
statement is read on parseable data. -/
def departureTimeMillis (f : IFlight) : Int :=
  f.departureTime.getD 0

/-- The `updated.sort((a, b) => new Date(a.departureTime).getTime() -
new Date(b.departureTime).getTime())` call of `handleFlightAdded`:
a stable ascending sort on the departure key (`Array.prototype.sort` is
required to be stable, matching `List.mergeSort`). -/
def sortByDepartureTime (l : List IFlight) : List IFlight :=
  l.mergeSort (fun a b => decide (departureTimeMillis a ≤ departureTimeMillis b))

/-- `handleFlightAdded` in src/components/FlightDashboard.tsx: if some
record already has the id of the pushed flight, the event is ignored and
the collection returned unchanged; otherwise the flight is appended and
the whole collection re-sorted ascending by departure time. -/
def handleFlightAdded (current : List IFlight) (newFlight : IFlight) : List IFlight :=
  if current.any (fun f => f.id == newFlight.id) then current
  else sortByDepartureTime (current ++ [newFlight])

lemma departure_le_trans (a b c : IFlight)
    (hab : decide (departureTimeMillis a ≤ departureTimeMillis b) = true)
    (hbc : decide (departureTimeMillis b ≤ departureTimeMillis c) = true) :
    decide (departureTimeMillis a ≤ departureTimeMillis c) = true := by
  simp only [decide_eq_true_eq] at *
  omega

lemma departure_le_total (a b : IFlight) :
    (decide (departureTimeMillis a ≤ departureTimeMillis b)
      || decide (departureTimeMillis b ≤ departureTimeMillis a)) = true := by
  simp only [Bool.or_eq_true, decide_eq_true_eq]
  omega

lemma sortByDepartureTime_perm (l : List IFlight) : (sortByDepartureTime l).Perm l :=
  List.mergeSort_perm l _

lemma sortByDepartureTime_sorted (l : List IFlight) :
    (sortByDepartureTime l).Sorted
      (fun a b => departureTimeMillis a ≤ departureTimeMillis b) := by
  have h := List.sorted_mergeSort departure_le_trans departure_le_total l
  exact h.imp (fun hab => of_decide_eq_true hab)

/-- C10: delivering a `FlightAdded` event whose id already occurs in the
collection leaves the collection unchanged, so the handler is idempotent
under duplicate delivery and never introduces a second record with the
same id (unique ids are preserved); when the id is new, the result is a
permutation of the collection with the new record appended, sorted
ascending by departure time. -/
theorem handleFlightAdded_spec (current : List IFlight) (newFlight : IFlight) :
    (current.any (fun f => f.id == newFlight.id) = true →
      handleFlightAdded current newFlight = current)
  ∧ handleFlightAdded (handleFlightAdded current newFlight) newFlight =
      handleFlightAdded current newFlight
  ∧ ((current.map IFlight.id).Nodup →
      ((handleFlightAdded current newFlight).map IFlight.id).Nodup)
  ∧ (current.any (fun f => f.id == newFlight.id) = false →
      (handleFlightAdded current newFlight).Perm (current ++ [newFlight])
    ∧ (handleFlightAdded current newFlight).Sorted
        (fun a b => departureTimeMillis a ≤ departureTimeMillis b)) := by
  by_cases h : current.any (fun f => f.id == newFlight.id) = true
  · have hc : handleFlightAdded current newFlight = current := by
      rw [handleFlightAdded, if_pos h]
    refine ⟨fun _ => hc, ?_, fun hnd => ?_, fun hfalse => ?_⟩
    · rw [hc]
      exact hc
    · rw [hc]
      exact hnd
    · rw [h] at hfalse
      cases hfalse
  · have hres : handleFlightAdded current newFlight =
        sortByDepartureTime (current ++ [newFlight]) := by
      rw [handleFlightAdded, if_neg h]
    have hperm : (handleFlightAdded current newFlight).Perm (current ++ [newFlight]) := by
      rw [hres]
      exact sortByDepartureTime_perm _
    have hmem : newFlight ∈ handleFlightAdded current newFlight :=
      hperm.mem_iff.mpr (by simp)
    have hnotmem : newFlight.id ∉ current.map IFlight.id := by
      intro hmemid
      rcases List.mem_map.mp hmemid with ⟨f, hf, hfid⟩
      have : current.any (fun f => f.id == newFlight.id) = true :=
        List.any_eq_true.mpr ⟨f, hf, by simp [hfid]⟩
      exact h this
    refine ⟨fun htrue => absurd htrue h, ?_, fun hnd => ?_, fun _ => ⟨hperm, ?_⟩⟩
    · have hany : (handleFlightAdded current newFlight).any
          (fun f => f.id == newFlight.id) = true :=
        List.any_eq_true.mpr ⟨newFlight, hmem, by simp⟩
      rw [handleFlightAdded, if_pos hany]
    · have hpermid : ((handleFlightAdded current newFlight).map IFlight.id).Perm
          ((current ++ [newFlight]).map IFlight.id) := hperm.map _
      refine hpermid.nodup_iff.mpr ?_
      simp only [List.map_append, List.map_cons, List.map_nil]
      rw [List.nodup_append]
      exact ⟨hnd, List.nodup_singleton _, by simpa using hnotmem⟩
    · rw [hres]
      exact sortByDepartureTime_sorted _

/-- Concrete fixture: flight "B" with a later departure and no pushed status. -/
def flightB_late : IFlight :=
  ⟨"B", "FD200", "CDG", some 7200000, "G2", none⟩

/-- Concrete fixture: a freshly pushed flight "A" with an earlier departure. -/
def flightA_new : IFlight :=
  ⟨"A", "FD300", "JFK", some 3600000, "G3", none⟩

/-- Witness for C10: adding a new id to a singleton collection preserves
unique ids and yields a permutation of the appended collection. -/
theorem handleFlightAdded_spec_witness :
    ((handleFlightAdded [flightB_late] flightA_new).map IFlight.id).Nodup
  ∧ (handleFlightAdded [flightB_late] flightA_new).Perm ([flightB_late] ++ [flightA_new]) :=
  ⟨(handleFlightAdded_spec [flightB_late] flightA_new).2.2.1 (by decide),
   ((handleFlightAdded_spec [flightB_late] flightA_new).2.2.2 (by decide)).1⟩
